import Mathlib

/-!
Verification development for the go-assets repository: an in-memory asset
FileSystem (filesystem.go, file.go) and the source Generator that walks a
real directory tree and serializes it (generate.go).

The Go code is shallowly embedded: pure functions become Lean functions,
pointer mutation of the shared `*File` objects becomes explicit state
passing on the map that owns them, Go `int`/`int64` become `Int`, byte
slices become `List Nat`, and Go map iteration order (unspecified in Go)
becomes an explicit iteration-list parameter.  Go standard-library
functions the code calls (path.Clean, path.Join, path.Dir, path.Base,
strings.TrimPrefix, bytes.Reader, time.Unix, strconv quoting as used by
fmt %#v, crypto/sha1) are translated here as well.  gzip compression and
go/format.Source are kept abstract: compression is an explicit function
parameter (its byte output never matters to the properties below), and
the final format.Source canonicalization step is outside the model, so
the serializer model returns the exact text handed to format.Source.
-/

/-! ## Association lists: the embedding of Go maps.

Lookup finds the entry; `mapSet` is Go map assignment (replace the value
of an existing key in place, append a new key).  Iteration order of a Go
map is unspecified, so functions that iterate a map take the iteration
sequence as an explicit argument. -/

def mapLookup {α : Type} : List (String × α) → String → Option α
  | [], _ => none
  | (k', v) :: rest, k => if k' = k then some v else mapLookup rest k

def mapSet {α : Type} : List (String × α) → String → α → List (String × α)
  | [], k, v => [(k, v)]
  | (k', v') :: rest, k, v =>
      if k' = k then (k', v) :: rest else (k', v') :: mapSet rest k v

/-! ## Go strings helpers -/

/-- strings.TrimPrefix(s, pre): drop pre when it is a prefix of s.
Modelled at the character level; identical to Go's byte-level test on the
valid UTF-8 strings the generator handles. -/
def stringsTrim (s pre : String) : String :=
  if pre.data.isPrefixOf s.data then String.mk (s.data.drop pre.data.length) else s

/-- Byte-lexicographic comparison of strings (Go `<` on string compares
bytes; UTF-8 byte order coincides with code-point order). -/
def charsLt : List Char → List Char → Bool
  | [], [] => false
  | [], _ :: _ => true
  | _ :: _, [] => false
  | a :: as, b :: bs => if a < b then true else if b < a then false else charsLt as bs

def strLt (a b : String) : Bool := charsLt a.data b.data

/-! ## path.Clean, path.Join, path.Dir, path.Base (Go package `path`) -/

/-- The pop loop of path.Clean's ".." case: `out.w--` has happened, this is
`for out.w > dotdot && out.index(out.w) != '/' { out.w-- }`. -/
def popW (s : List Char) (dotdot : Nat) : Nat → Nat
  | 0 => 0
  | w + 1 =>
      if w + 1 > dotdot ∧ s.getD (w + 1) ' ' ≠ '/' then popW s dotdot w else w + 1

/-- The main loop of path.Clean over the remaining input, the output buffer
and the dotdot mark.  Every iteration consumes at least one input
character, so the loop is driven by a structural fuel argument that
pathClean passes in as the input length; the fuel-exhausted case is never
reached. -/
def cleanGo (rooted : Bool) : Nat → List Char → List Char → Nat → List Char
  | _, [], out, _ => out
  | 0, _ :: _, out, _ => out
  | fuel + 1, c :: tl, out, dotdot =>
    if c = '/' then
      cleanGo rooted fuel tl out dotdot
    else if c = '.' ∧ (tl = [] ∨ tl.head? = some '/') then
      cleanGo rooted fuel tl out dotdot
    else if c = '.' ∧ tl.head? = some '.' ∧ (tl.tail = [] ∨ tl.tail.head? = some '/') then
      (if out.length > dotdot then
        cleanGo rooted fuel tl.tail (out.take (popW out dotdot (out.length - 1))) dotdot
      else if rooted = false then
        let out2 := (if out.length > 0 then out ++ ['/'] else out) ++ ['.', '.']
        cleanGo rooted fuel tl.tail out2 out2.length
      else
        cleanGo rooted fuel tl.tail out dotdot)
    else
      let out2 :=
        if (rooted ∧ out.length ≠ 1) ∨ (rooted = false ∧ out.length ≠ 0)
        then out ++ ['/'] else out
      cleanGo rooted fuel (tl.dropWhile (· ≠ '/')) (out2 ++ (c :: tl.takeWhile (· ≠ '/'))) dotdot

/-- path.Clean. -/
def pathClean (s : String) : String :=
  if s = "" then "." else
  let cs := s.data
  let rooted : Bool := cs.head? = some '/'
  let out :=
    if rooted then cleanGo true cs.length cs.tail ['/'] 1
    else cleanGo false cs.length cs [] 0
  if out.length = 0 then "." else String.mk out

/-- path.Join of two elements, as the generator calls it. -/
def pathJoin (a b : String) : String :=
  if a ≠ "" then pathClean (a ++ "/" ++ b)
  else if b ≠ "" then pathClean b
  else ""

def lastSlashIdx (cs : List Char) : Option Nat :=
  (List.range cs.length).foldl (fun acc i => if cs.getD i ' ' = '/' then some i else acc) none

/-- path.Dir: everything before the final slash (inclusive), Cleaned. -/
def pathDir (s : String) : String :=
  match lastSlashIdx s.data with
  | some i => pathClean (String.mk (s.data.take (i + 1)))
  | none => pathClean ""

/-- path.Base: the last element of the path. -/
def pathBase (s : String) : String :=
  if s = "" then "." else
  let cs := (s.data.reverse.dropWhile (· = '/')).reverse
  if cs = [] then "/" else String.mk (cs.reverse.takeWhile (· ≠ '/')).reverse

/-! ## Bytes, hex and Go quoting -/

def utf8Char (c : Char) : List Nat :=
  let n := c.toNat
  if n < 128 then [n]
  else if n < 2048 then [192 ||| (n >>> 6), 128 ||| (n &&& 63)]
  else if n < 65536 then
    [224 ||| (n >>> 12), 128 ||| ((n >>> 6) &&& 63), 128 ||| (n &&& 63)]
  else
    [240 ||| (n >>> 18), 128 ||| ((n >>> 12) &&& 63),
     128 ||| ((n >>> 6) &&& 63), 128 ||| (n &&& 63)]

/-- The UTF-8 bytes of a string (Go strings are byte sequences). -/
def utf8Bytes (s : String) : List Nat := (s.data.map utf8Char).flatten

def hexDigit (n : Nat) : Char := "0123456789abcdef".data.getD n '0'

/-- Hex digits of n, most significant first; the structural fuel bounds
the digit count and n itself is always a sufficient bound. -/
def natHexAux : Nat → Nat → List Char
  | _, 0 => []
  | n, fuel + 1 =>
      if n < 16 then [hexDigit n]
      else natHexAux (n / 16) fuel ++ [hexDigit (n % 16)]

def natHexDigits (n : Nat) : List Char :=
  if n = 0 then ['0'] else natHexAux n n

/-- fmt's %#v of an unsigned integer type such as os.FileMode: 0x + hex. -/
def goFormatUIntHex (n : Nat) : String := "0x" ++ String.mk (natHexDigits n)

def goFormatBool (b : Bool) : String := if b then "true" else "false"

def hexByte (b : Nat) : List Char := [hexDigit (b >>> 4), hexDigit (b &&& 15)]

/-- fmt's %x of a byte slice: two lowercase hex digits per byte. -/
def hexOfBytes (bs : List Nat) : String := String.mk (bs.map hexByte).flatten

/-- One byte of strconv.Quote's output (the quoting fmt %#v applies to a
string).  Byte-level model; it agrees with Go on the ASCII content the
proofs below evaluate. -/
def quoteByte (b : Nat) : List Char :=
  if b = 34 then ['\\', '"']
  else if b = 92 then ['\\', '\\']
  else if b = 7 then ['\\', 'a']
  else if b = 8 then ['\\', 'b']
  else if b = 12 then ['\\', 'f']
  else if b = 10 then ['\\', 'n']
  else if b = 13 then ['\\', 'r']
  else if b = 9 then ['\\', 't']
  else if b = 11 then ['\\', 'v']
  else if 32 ≤ b ∧ b < 127 then [Char.ofNat b]
  else ['\\', 'x'] ++ hexByte b

/-- strconv.Quote over a byte sequence, as fmt %#v prints `string(data)`. -/
def goQuoteBytes (bs : List Nat) : String :=
  "\"" ++ String.mk (bs.map quoteByte).flatten ++ "\""

def goQuoteStr (s : String) : String := goQuoteBytes (utf8Bytes s)

def joinSep (sep : String) : List String → String
  | [] => ""
  | [x] => x
  | x :: y :: xs => x ++ sep ++ joinSep sep (y :: xs)

/-! ## time.Time, as the asset model uses it -/

/-- A time instant: seconds since the epoch plus the in-second nanosecond
offset (the two fields Go's time.Time exposes through Unix and the
nanosecond remainder). -/
structure GoTime where
  sec : Int
  nsec : Int
deriving DecidableEq

/-- time.Time.Unix(): whole seconds since the epoch. -/
def GoTime.Unix (t : GoTime) : Int := t.sec

/-- time.Time.UnixNano(): total nanoseconds since the epoch. -/
def GoTime.UnixNano (t : GoTime) : Int := t.sec * 1000000000 + t.nsec

/-- time.Unix(sec, nsec): the instant sec seconds + nsec nanoseconds after
the epoch, normalizing nsec into [0, 1e9) exactly as Go does (Go `/` on
int64 truncates toward zero, hence Int.tdiv). -/
def timeUnix (sec0 nsec0 : Int) : GoTime :=
  if nsec0 < 0 ∨ 1000000000 ≤ nsec0 then
    let n := Int.tdiv nsec0 1000000000
    let sec := sec0 + n
    let nsec := nsec0 - n * 1000000000
    if nsec < 0 then ⟨sec - 1, nsec + 1000000000⟩ else ⟨sec, nsec⟩
  else ⟨sec0, nsec0⟩

/-! ## os.FileMode -/

/-- os.ModeDir: bit 31 of the uint32 FileMode. -/
def goModeDir : Nat := 2147483648

/-- os.FileMode.IsDir(): m & ModeDir != 0. -/
def fileModeIsDir (m : Nat) : Bool := (m &&& goModeDir) != 0

/-! ## Errors.

The sentinel errors the code returns plus an `io` constructor for errors
injected by the surrounding OS model (a failing os.Open of a directory,
a failing Readdir enumeration). -/

inductive GoErr where
  | eof
  | errInvalid
  | errNotExist
  | errNegativePosition
  | errWhence
  | io (msg : String)
deriving DecidableEq

/-! ## bytes.Reader -/

/-- bytes.Reader: a read cursor `i` over a byte slice `s`. -/
structure ByteReader where
  s : List Nat
  i : Int
deriving DecidableEq

/-- bytes.Reader.Read into a buffer of length n: EOF once the cursor is at
or past the end, otherwise a copy of up to n bytes and a cursor advance. -/
def ByteReader.read (r : ByteReader) (n : Nat) : ByteReader × List Nat × Option GoErr :=
  if r.i ≥ (r.s.length : Int) then (r, [], some .eof)
  else
    let b := (r.s.drop r.i.toNat).take n
    ({ r with i := r.i + b.length }, b, none)

/-- bytes.Reader.Seek: whence 0 = start, 1 = current, 2 = end; a negative
resulting position is an error, an invalid whence is an error. -/
def ByteReader.seek (r : ByteReader) (offset : Int) (whence : Nat) :
    ByteReader × Int × Option GoErr :=
  match whence with
  | 0 => if offset < 0 then (r, 0, some .errNegativePosition)
         else ({ r with i := offset }, offset, none)
  | 1 => let abs := r.i + offset
         if abs < 0 then (r, 0, some .errNegativePosition)
         else ({ r with i := abs }, abs, none)
  | 2 => let abs := (r.s.length : Int) + offset
         if abs < 0 then (r, 0, some .errNegativePosition)
         else ({ r with i := abs }, abs, none)
  | _ => (r, 0, some .errWhence)

/-! ## The runtime asset file system (filesystem.go, file.go).

A `File` is the in-memory asset object.  `buf` embeds the `*bytes.Reader`
read cursor: `none` is the nil pointer, `some i` a reader positioned at
offset i over the file's own `Data` slice (the reader is always created
as `bytes.NewReader(f.Data)`, so only the offset is state).

The FileSystem's `Files` map holds pointers to File objects; `Open`
returns one of those pointers.  In this embedding a handle is therefore
the path key of the shared object in `files`, and every operation a
handle performs reads and writes the object in the map - which is exactly
the aliasing the Go code exhibits, because `ret := fi` in Open copies the
*File pointer, not the File value. -/

structure File where
  path : String
  fileMode : Nat
  mtime : GoTime
  data : List Nat
  buf : Option Int
deriving DecidableEq

def File.IsDir (f : File) : Bool := fileModeIsDir f.fileMode

def File.Name (f : File) : String := pathBase f.path

def File.Mode (f : File) : Nat := f.fileMode

def File.ModTime (f : File) : GoTime := f.mtime

def File.Size (f : File) : Int := (f.data.length : Int)

/-- File.Close: drops the cursor and always reports success. -/
def File.Close (f : File) : File × Option GoErr := ({ f with buf := none }, none)

/-- File.Stat: returns the File itself as its os.FileInfo, never an error. -/
def File.Stat (f : File) : File × Option GoErr := (f, none)

/-- File.Read: lazily (re-)creates the reader over Data when buf is nil,
then reads.  Returns the mutated File, the bytes read, and the error. -/
def File.Read (f : File) (n : Nat) : File × List Nat × Option GoErr :=
  let r : ByteReader := ⟨f.data, f.buf.getD 0⟩
  let o := r.read n
  ({ f with buf := some o.1.i }, o.2.1, o.2.2)

/-- File.Seek: same lazy reader creation, then bytes.Reader.Seek. -/
def File.Seek (f : File) (offset : Int) (whence : Nat) : File × Int × Option GoErr :=
  let r : ByteReader := ⟨f.data, f.buf.getD 0⟩
  let o := r.seek offset whence
  ({ f with buf := some o.1.i }, o.2.1, o.2.2)

structure FileSystem where
  Dirs : List (String × List String)
  Files : List (String × File)
  Compressed : Bool
deriving DecidableEq

/-- FileSystem.Open: a missing path is os.ErrNotExist.  For a regular file
the code runs `ret := fi; ret.buf = bytes.NewReader(ret.Data)`: `ret` is
the same *File pointer the map holds, so the assignment resets the cursor
of the shared object and the returned handle aliases it.  For a directory
the shared object is returned untouched. -/
def FileSystem.Open (fs : FileSystem) (p : String) : FileSystem × Except GoErr String :=
  match mapLookup fs.Files p with
  | some fi =>
      if ¬fi.IsDir then
        ({ fs with Files := mapSet fs.Files p { fi with buf := some 0 } }, .ok p)
      else (fs, .ok p)
  | none => (fs, .error .errNotExist)

/-- A read through a handle returned by Open: File.Read runs on the shared
object in the map and its mutation is stored back. -/
def FileSystem.handleRead (fs : FileSystem) (h : String) (n : Nat) :
    FileSystem × List Nat × Option GoErr :=
  match mapLookup fs.Files h with
  | some f =>
      let o := f.Read n
      ({ fs with Files := mapSet fs.Files h o.1 }, o.2.1, o.2.2)
  | none => (fs, [], some .errInvalid)

/-- A seek through a handle, on the shared object. -/
def FileSystem.handleSeek (fs : FileSystem) (h : String) (offset : Int) (whence : Nat) :
    FileSystem × Int × Option GoErr :=
  match mapLookup fs.Files h with
  | some f =>
      let o := f.Seek offset whence
      ({ fs with Files := mapSet fs.Files h o.1 }, o.2.1, o.2.2)
  | none => (fs, 0, some .errInvalid)

/-- The outcome of FileSystem.readDir.  `panicked` is a Go runtime panic:
`make([]os.FileInfo, 0, maxl-index)` with a negative capacity, or an
out-of-range `d[i]` access. -/
inductive ReadDirResult where
  | ok (infos : List (Option File))
  | err (e : GoErr)
  | panicked
deriving DecidableEq

/-- FileSystem.readDir(p, index, count): clamps maxl = index+count to the
listing length, allocates a slice of capacity maxl-index and copies the
entries d[index..maxl).  A missing directory is os.ErrNotExist.  Entries
are looked up in Files by joined path; a missing entry is Go's nil map
value, embedded as `none`. -/
def FileSystem.readDir (fs : FileSystem) (p : String) (index count : Int) : ReadDirResult :=
  match mapLookup fs.Dirs p with
  | some d =>
      let len : Int := (d.length : Int)
      let maxl : Int := if index + count > len then len else index + count
      if maxl - index < 0 then .panicked
      else if index < 0 ∧ 0 < maxl - index then .panicked
      else .ok (((List.range (maxl - index).toNat).map
        (fun j => mapLookup fs.Files (pathJoin p (d.getD ((index).toNat + j) "")))))
  | none => .err .errNotExist

/-- The full listing of a directory: the lookup-and-resolve the no-argument
readDir call in File.Readdir performs. -/
def FileSystem.readDirAll (fs : FileSystem) (p : String) :
    Except GoErr (List (Option File)) :=
  match mapLookup fs.Dirs p with
  | some d => .ok (d.map (fun name => mapLookup fs.Files (pathJoin p name)))
  | none => .error .errNotExist

/-- File.Readdir: on a directory handle it delegates to the file system's
readDir on its own path (the count argument is not passed on); on a
regular file it fails with os.ErrInvalid. -/
def File.Readdir (fs : FileSystem) (f : File) (_count : Int) :
    Except GoErr (List (Option File)) :=
  if f.IsDir then fs.readDirAll f.path else .error .errInvalid

/-! ## The generator (generate.go).

os.FileInfo is the metadata the walk stores; FsNode is the surrounding
real file system: a node carries its FileInfo, the error os.Open(p) would
return for it, the error f.Readdir(-1) would return, and its children in
the directory's natural enumeration order.  Whether a node is a directory
is decided - as in the code - by its mode's ModeDir bit. -/

structure FileInfo where
  name : String
  mode : Nat
  mtime : GoTime
deriving DecidableEq

def FileInfo.IsDir (i : FileInfo) : Bool := fileModeIsDir i.mode

inductive FsNode where
  | node (info : FileInfo) (openErr : Option GoErr) (readdirErr : Option GoErr)
      (children : List FsNode)

def FsNode.info : FsNode → FileInfo
  | .node i _ _ _ => i

structure Generator where
  PackageName : String
  VariableName : String
  Compressed : Bool
  StripPrefix : String
  fsDirsMap : Option (List (String × List String))
  fsFilesMap : Option (List (String × FileInfo))

/-- The two nil-map initializations at the top of addPath. -/
def ensureMaps (x : Generator) : Generator :=
  let x := if x.fsFilesMap.isSome then x else { x with fsFilesMap := some [] }
  if x.fsDirsMap.isSome then x else { x with fsDirsMap := some [] }

mutual
/-- Generator.addPath(parent, info): joins the path, stores the FileInfo in
fsFilesMap, and then: for a directory, opens and enumerates it - note the
os.Open error is discarded by the immediate re-assignment `fi, err :=
f.Readdir(-1)`, and Readdir on the nil handle of a failed Open returns
os.ErrInvalid - initializes its empty listing and recurses over the
children, stopping at the first error; for a regular file, appends its
name to the parent's listing. -/
def Generator.addPath (parent : String) (nd : FsNode) (x : Generator) :
    Generator × Option GoErr :=
  match nd with
  | .node info oerr rerr children =>
    let p := pathJoin parent info.name
    let x := ensureMaps x
    let x := { x with fsFilesMap := some (mapSet (x.fsFilesMap.getD []) p info) }
    if info.IsDir then
      let rdErr : Option GoErr := if oerr.isSome then some .errInvalid else rerr
      match rdErr with
      | some e => (x, some e)
      | none =>
          let x := { x with fsDirsMap := some (mapSet (x.fsDirsMap.getD []) p []) }
          Generator.addChildren p children x
    else
      let listing := (mapLookup (x.fsDirsMap.getD []) parent).getD [] ++ [info.name]
      ({ x with fsDirsMap := some (mapSet (x.fsDirsMap.getD []) parent listing) }, none)

/-- The `for _, f := range fi` loop of addPath: visit each child in order,
returning the first error. -/
def Generator.addChildren (p : String) (cs : List FsNode) (x : Generator) :
    Generator × Option GoErr :=
  match cs with
  | [] => (x, none)
  | c :: rest =>
      let o := Generator.addPath p c x
      match o.2 with
      | some e => (o.1, some e)
      | none => Generator.addChildren p rest o.1
end

/-- Generator.Add(p): cleans p, stats it on the real file system (`stat` is
the OS's answer for the cleaned path: none = the path does not exist), and
on success walks from addPath(path.Dir(p), info). -/
def Generator.Add (x : Generator) (p : String) (stat : Option FsNode) :
    Generator × Option GoErr :=
  let pc := pathClean p
  match stat with
  | none => (x, some .errNotExist)
  | some nd => Generator.addPath (pathDir pc) nd x

/-! ## crypto/sha1, used for the embedded blob variable names -/

def rotl32 (n x : Nat) : Nat := ((x <<< n) ||| (x >>> (32 - n))) % 4294967296

def be32 (n : Nat) : List Nat := [(n >>> 24) % 256, (n >>> 16) % 256, (n >>> 8) % 256, n % 256]

def be64 (n : Nat) : List Nat :=
  [(n >>> 56) % 256, (n >>> 48) % 256, (n >>> 40) % 256, (n >>> 32) % 256,
   (n >>> 24) % 256, (n >>> 16) % 256, (n >>> 8) % 256, n % 256]

/-- SHA-1 padding: 0x80, zeros to 56 mod 64, then the bit length big-endian. -/
def sha1Pad (msg : List Nat) : List Nat :=
  let l := msg.length
  let zeros := (64 + 56 - ((l + 1) % 64)) % 64
  msg ++ [128] ++ List.replicate zeros 0 ++ be64 (8 * l)

/-- The 16 big-endian words of one 64-byte block. -/
def sha1BlockWords (b : List Nat) : List Nat :=
  (List.range 16).map (fun i =>
    (b.getD (4 * i) 0) <<< 24 + (b.getD (4 * i + 1) 0) <<< 16 +
    (b.getD (4 * i + 2) 0) <<< 8 + b.getD (4 * i + 3) 0)

/-- Message-schedule extension to 80 words. -/
def sha1Extend (w16 : List Nat) : List Nat :=
  (List.range 64).foldl
    (fun ws _ =>
      let n := ws.length
      ws ++ [rotl32 1 ((ws.getD (n - 3) 0) ^^^ (ws.getD (n - 8) 0) ^^^
                       (ws.getD (n - 14) 0) ^^^ (ws.getD (n - 16) 0))])
    w16

def sha1F (t b c d : Nat) : Nat :=
  if t < 20 then (b &&& c) ||| ((4294967295 ^^^ b) &&& d)
  else if t < 40 then b ^^^ c ^^^ d
  else if t < 60 then (b &&& c) ||| (b &&& d) ||| (c &&& d)
  else b ^^^ c ^^^ d

def sha1K (t : Nat) : Nat :=
  if t < 20 then 1518500249
  else if t < 40 then 1859775393
  else if t < 60 then 2400959708
  else 3395469782

def sha1Round (w : List Nat) (st : Nat × Nat × Nat × Nat × Nat) (t : Nat) :
    Nat × Nat × Nat × Nat × Nat :=
  let a := st.1; let b := st.2.1; let c := st.2.2.1; let d := st.2.2.2.1; let e := st.2.2.2.2
  let temp := (rotl32 5 a + sha1F t b c d + e + sha1K t + w.getD t 0) % 4294967296
  (temp, a, rotl32 30 b, c, d)

def sha1Block (h : Nat × Nat × Nat × Nat × Nat) (block : List Nat) :
    Nat × Nat × Nat × Nat × Nat :=
  let w := sha1Extend (sha1BlockWords block)
  let o := (List.range 80).foldl (sha1Round w) h
  ((h.1 + o.1) % 4294967296, (h.2.1 + o.2.1) % 4294967296,
   (h.2.2.1 + o.2.2.1) % 4294967296, (h.2.2.2.1 + o.2.2.2.1) % 4294967296,
   (h.2.2.2.2 + o.2.2.2.2) % 4294967296)

/-- The 20-byte SHA-1 digest of a byte sequence. -/
def sha1 (msg : List Nat) : List Nat :=
  let blocks := List.toChunks 64 (sha1Pad msg)
  let h := blocks.foldl sha1Block (1732584193, 4023233417, 2562383102, 271733878, 3285377520)
  be32 h.1 ++ be32 h.2.1 ++ be32 h.2.2.1 ++ be32 h.2.2.2.1 ++ be32 h.2.2.2.2

/-! ## Generator.Write (generate.go lines 113-263).

The model produces the exact text the code hands to format.Source at the
end (the external canonicalization step is outside the model; per the
code, Write then fails exactly when format.Source rejects the text).

Inputs beyond the Generator: `contents` is the OS at serialization time
(os.Open + read of an original path; none = the open/read fails), `gzipFn`
is the gzip compressor (an abstract deterministic byte function), and the
three iteration lists stand for Go's unspecified map iteration order: the
first range over fsFilesMap (const-string pass), the range over fsDirsMap,
and the second range over fsFilesMap (Files literal pass). -/

/-- Lines 215-219: strip the prefix from a dirmap key, "/" when empty. -/
def stripDirKey (strip k : String) : String :=
  let kk := stringsTrim k strip
  if kk.length = 0 then "/" else kk

/-- Lines 208-212: strip the prefix from a listed child name, "/" when empty. -/
def stripChildName (strip vi : String) : String :=
  let v := stringsTrim vi strip
  if v.length = 0 then "/" else v

/-- Lines 229-233: strip the prefix from a Files key, "/" when empty. -/
def stripFileKey (strip k : String) : String :=
  let kk := stringsTrim k strip
  if kk.length = 0 then "/" else kk

/-- One entry of the `dirmap` rebuild loop (lines 204-222). -/
def dirMapEntry (strip : String) (kv : String × List String) : String × List String :=
  (stripDirKey strip kv.1, kv.2.map (stripChildName strip))

/-- The `dirmap` map built by that loop, from the iteration sequence. -/
def buildDirMap (strip : String) (iter : List (String × List String)) :
    List (String × List String) :=
  iter.foldl (fun m kv => let e := dirMapEntry strip kv; mapSet m e.1 e.2) []

/-- Insertion step of sorting map entries by key, byte-lexicographically. -/
def sortInsertEntry (x : String × List String) :
    List (String × List String) → List (String × List String)
  | [] => [x]
  | y :: ys => if strLt y.1 x.1 then y :: sortInsertEntry x ys else x :: y :: ys

/-- fmt %#v prints a map's entries in sorted key order. -/
def sortEntries : List (String × List String) → List (String × List String)
  | [] => []
  | x :: xs => sortInsertEntry x (sortEntries xs)

def goFormatStrSlice (v : List String) : String :=
  "[]string\x7b" ++ joinSep ", " (v.map goQuoteStr) ++ "\x7d"

/-- fmt %#v of a non-nil map[string][]string. -/
def goFormatDirMap (m : List (String × List String)) : String :=
  "map[string][]string\x7b" ++
    joinSep ", " (m.map (fun kv => goQuoteStr kv.1 ++ ":" ++ goFormatStrSlice kv.2)) ++
  "\x7d"

/-- Lines 177-183: the blob variable name for an original path k: the
exported variable name prefixed with __ and followed by the hex SHA-1
digest of k. -/
def blobVarName (variableName k : String) : String :=
  "__" ++ variableName ++ hexOfBytes (sha1 (utf8Bytes k))

/-- Lines 139-187, the const-strings pass: for every regular file in the
first fsFilesMap iteration, read its content from the OS (an open failure
aborts Write with that error), gzip it when Compressed, emit the []byte
declaration, and record the path → variable-name binding.  Skipped
entirely - including the trailing blank line - when fsFilesMap is nil. -/
def constStep (compressed : Bool) (variableName : String)
    (contents : String → Option (List Nat)) (gzipFn : List Nat → List Nat)
    (acc : String × List (String × String)) (kv : String × FileInfo) :
    Except GoErr (String × List (String × String)) :=
  if kv.2.IsDir then .ok acc
  else
    match contents kv.1 with
    | none => .error (.io ("open " ++ kv.1))
    | some c =>
        let data := if compressed then gzipFn c else c
        let vname := blobVarName variableName kv.1
        .ok (acc.1 ++ "var " ++ vname ++ " = []byte(" ++ goQuoteBytes data ++ ")\n",
             mapSet acc.2 kv.1 vname)

def constSection (compressed : Bool) (variableName : String)
    (contents : String → Option (List Nat)) (gzipFn : List Nat → List Nat) :
    Option (List (String × FileInfo)) → Except GoErr (String × List (String × String))
  | none => .ok ("", [])
  | some iter =>
      match iter.foldlM (constStep compressed variableName contents gzipFn) ("", []) with
      | .error e => .error e
      | .ok acc => .ok (acc.1 ++ "\n", acc.2)

/-- Lines 228-248: one Files-literal entry.  The MTime line stores the two
components the code prints: mt.Unix() and mt.UnixNano().  Directories get
no Data line; files reference their recorded blob variable (Go map lookup
of a missing key yields the empty string). -/
def fileEntryBlock (strip : String) (vnames : List (String × String))
    (kv : String × FileInfo) : String :=
  let kk := stripFileKey strip kv.1
  "\t\t\t" ++ goQuoteStr kk ++ ": &assets.File\x7b\n" ++
  "\t\t\t\tPath:     " ++ goQuoteStr kk ++ ",\n" ++
  "\t\t\t\tFileMode: " ++ goFormatUIntHex kv.2.mode ++ ",\n" ++
  "\t\t\t\tMTime:    time.Unix(" ++ toString kv.2.mtime.Unix ++ ", " ++
    toString kv.2.mtime.UnixNano ++ "),\n" ++
  (if kv.2.IsDir then "" else
    "\t\t\t\tData:     " ++ (mapLookup vnames kv.1).getD "" ++ ",\n") ++
  "\t\t\t\x7d,\n"

def filesSection (strip : String) (vnames : List (String × String))
    (iter : List (String × FileInfo)) : String :=
  (iter.map (fileEntryBlock strip vnames)).foldl (· ++ ·) ""

/-- The emitted `Dirs:` line: the rebuilt dirmap printed by fmt %#v, whose
map rendering lists the entries in sorted key order. -/
def dirsLineOf (strip : String) (dirsIter : List (String × List String)) : String :=
  "\t\tDirs: " ++ goFormatDirMap (sortEntries (buildDirMap strip dirsIter)) ++ ",\n"

/-- The text Generator.Write assembles and passes to format.Source. -/
def Generator.writeOutput (x : Generator) (contents : String → Option (List Nat))
    (gzipFn : List Nat → List Nat)
    (filesIter1 filesIter2 : List (String × FileInfo))
    (dirsIter : List (String × List String)) : Except GoErr String :=
  let p := if x.PackageName.data = [] then "main" else x.PackageName
  let variableName := if x.VariableName.data = [] then "Assets" else x.VariableName
  let header := "package " ++ p ++ "\n\n" ++
    "import (\n" ++ "\t\"github.com/jessevdk/go-assets\"\n" ++ "\t\"time\"\n" ++ ")\n" ++ "\n"
  match constSection x.Compressed variableName contents gzipFn
      (if x.fsFilesMap.isSome then some filesIter1 else none) with
  | .error e => .error e
  | .ok o =>
      let dirsLine := dirsLineOf x.StripPrefix dirsIter
      .ok (header ++ o.1 ++
        "var " ++ variableName ++ " assets.FileSystem\n\n" ++
        "func init() \x7b\n" ++
        "\t" ++ variableName ++ " = assets.FileSystem\x7b\n" ++
        dirsLine ++
        "\t\tFiles: map[string]*assets.File\x7b\n" ++
        filesSection x.StripPrefix o.2 filesIter2 ++
        "\t\t\x7d,\n" ++
        "\t\tCompressed: " ++ goFormatBool x.Compressed ++ ",\n" ++
        "\t\x7d\n" ++ "\x7d\n")

/-! ## Orders on emitted map entries, and decidable equality of results -/

/-- Key order `a ≤ b` on emitted map entries (no key of b below a). -/
def entryLe (a b : String × List String) : Prop := strLt b.1 a.1 = false

/-- Strict key order on emitted map entries. -/
def entryLt (a b : String × List String) : Prop := strLt a.1 b.1 = true

instance : DecidableEq (Except GoErr String) := fun a b =>
  match a, b with
  | .ok u, .ok v => if h : u = v then .isTrue (by rw [h]) else .isFalse (by simp [h])
  | .error u, .error v => if h : u = v then .isTrue (by rw [h]) else .isFalse (by simp [h])
  | .ok _, .error _ => .isFalse (by simp)
  | .error _, .ok _ => .isFalse (by simp)

/-! ## Concrete scenarios the claims are settled on -/

/-- A file system holding one regular file "/a" with bytes [10, 20]. -/
def fsShared : FileSystem :=
  ⟨[], [("/a", ⟨"/a", 420, ⟨0, 0⟩, [10, 20], none⟩)], false⟩

/-- A file system whose root directory listing is present and empty, plus
one with a single child. -/
def fsEmptyRoot : FileSystem := ⟨[("/", [])], [], false⟩

def fsOneChild : FileSystem :=
  ⟨[("/", ["f"])], [("/f", ⟨"/f", 420, ⟨0, 0⟩, [1], none⟩)], false⟩

/-- A directory handle as the generated initialization builds it: ModeDir
set, no data, nil cursor. -/
def dirHandle : File := ⟨"/", goModeDir + 493, ⟨0, 0⟩, [], none⟩

/-- The spec's concrete scenario: root directory a containing the regular
file a/b.txt and the empty subdirectory a/c. -/
def exTree : FsNode :=
  .node ⟨"a", goModeDir + 493, ⟨0, 0⟩⟩ none none
    [ .node ⟨"b.txt", 420, ⟨0, 0⟩⟩ none none []
    , .node ⟨"c", goModeDir + 493, ⟨0, 0⟩⟩ none none [] ]

def gStart : Generator := ⟨"", "", false, "a", none, none⟩

/-- The collector state after Add("a") on the scenario tree. -/
def gEx : Generator := (gStart.Add "a" (some exTree)).1

/-- Root directory a with a subdirectory s whose os.Open fails. -/
def badOpenTree : FsNode :=
  .node ⟨"a", goModeDir + 493, ⟨0, 0⟩⟩ none none
    [ .node ⟨"s", goModeDir + 493, ⟨0, 0⟩⟩ (some (.io "permission denied")) none [] ]

/-- Root directory a with a subdirectory s whose Readdir fails. -/
def badReaddirTree : FsNode :=
  .node ⟨"a", goModeDir + 493, ⟨0, 0⟩⟩ none none
    [ .node ⟨"s", goModeDir + 493, ⟨0, 0⟩⟩ none (some (.io "EIO")) [] ]

/-- Root directory a whose first child fails and whose second child is a
regular file: the walk must stop before registering a/good. -/
def stopTree : FsNode :=
  .node ⟨"a", goModeDir + 493, ⟨0, 0⟩⟩ none none
    [ .node ⟨"s", goModeDir + 493, ⟨0, 0⟩⟩ none (some (.io "EIO")) []
    , .node ⟨"good", 420, ⟨0, 0⟩⟩ none none [] ]

/-- Two regular files x and y for the serializer-determinism scenario. -/
def finfoX : FileInfo := ⟨"x", 420, ⟨0, 0⟩⟩

def finfoY : FileInfo := ⟨"y", 420, ⟨0, 0⟩⟩

def gDet : Generator :=
  ⟨"", "", false, "", some [("d", [])], some [("x", finfoX), ("y", finfoY)]⟩

def contDet : String → Option (List Nat) :=
  fun p => if p = "x" ∨ p = "y" then some [104, 105] else none

/-! ## Helper lemmas -/

theorem charsLt_asymm : ∀ (a b : List Char), charsLt a b = true → charsLt b a = false
  | [], [] => by simp [charsLt]
  | [], _ :: _ => by simp [charsLt]
  | _ :: _, [] => by simp [charsLt]
  | x :: xs, y :: ys => by
      by_cases h1 : x < y
      · intro _
        simp [charsLt, h1, lt_asymm h1]
      · by_cases h2 : y < x
        · intro hcontra
          simp [charsLt, h1, h2] at hcontra
        · intro h
          simp only [charsLt, if_neg h1, if_neg h2] at h
          simpa [charsLt, h1, h2] using charsLt_asymm xs ys h

theorem charsLt_trans :
    ∀ (a b c : List Char), charsLt a b = true → charsLt b c = true → charsLt a c = true
  | [], [], _ => by intro h; simp [charsLt] at h
  | _ :: _, [], _ => by intro h; simp [charsLt] at h
  | [], _ :: _, [] => by intro _ h; simp [charsLt] at h
  | [], _ :: _, _ :: _ => by simp [charsLt]
  | _ :: _, _ :: _, [] => by intro _ h; simp [charsLt] at h
  | x :: xs, y :: ys, z :: zs => by
      intro h1 h2
      by_cases hxy : x < y
      · by_cases hyz : y < z
        · simp [charsLt, lt_trans hxy hyz]
        · by_cases hzy : z < y
          · simp [charsLt, hyz, hzy] at h2
          · have : y = z := le_antisymm (not_lt.mp hzy) (not_lt.mp hyz)
            simp [charsLt, this ▸ hxy]
      · by_cases hyx : y < x
        · simp [charsLt, hxy, hyx] at h1
        · have hxy' : x = y := le_antisymm (not_lt.mp hyx) (not_lt.mp hxy)
          subst hxy'
          simp only [charsLt, if_neg hxy, if_neg hyx] at h1
          by_cases hyz : x < z
          · simp [charsLt, hyz]
          · by_cases hzy : z < x
            · simp [charsLt, hyz, hzy] at h2
            · simp only [charsLt, if_neg hyz, if_neg hzy] at h2 ⊢
              exact charsLt_trans xs ys zs h1 h2

theorem charsLt_conn : ∀ (a b : List Char), charsLt a b = false → charsLt b a = false → a = b
  | [], [] => by intro _ _; rfl
  | [], _ :: _ => by intro h _; simp [charsLt] at h
  | _ :: _, [] => by intro _ h; simp [charsLt] at h
  | x :: xs, y :: ys => by
      intro h1 h2
      by_cases hxy : x < y
      · simp [charsLt, hxy] at h1
      · by_cases hyx : y < x
        · simp [charsLt, hyx] at h2
        · have hx : x = y := le_antisymm (not_lt.mp hyx) (not_lt.mp hxy)
          simp only [charsLt, if_neg hxy, if_neg hyx] at h1
          simp only [charsLt, if_neg hyx, if_neg hxy] at h2
          rw [hx, charsLt_conn xs ys h1 h2]

theorem strEq_of_data {a b : String} (h : a.data = b.data) : a = b := by
  cases a
  cases b
  exact congrArg String.mk h

/-- a ≤ b and b ≤ c imply a ≤ c, in the not-less-than form. -/
theorem charsLt_false_trans {a b c : List Char}
    (h1 : charsLt b a = false) (h2 : charsLt c b = false) : charsLt c a = false := by
  cases h3 : charsLt c a with
  | false => rfl
  | true =>
      exfalso
      cases hab : charsLt a b with
      | true =>
          have := charsLt_trans c a b h3 hab
          rw [this] at h2
          cases h2
      | false =>
          have hba : a = b := charsLt_conn a b hab h1
          rw [hba] at h3
          rw [h3] at h2
          cases h2

theorem sortInsertEntry_perm (x : String × List String) :
    ∀ (l : List (String × List String)), (sortInsertEntry x l).Perm (x :: l)
  | [] => List.Perm.refl _
  | y :: ys => by
      simp only [sortInsertEntry]
      by_cases h : strLt y.1 x.1
      · simp only [h, if_true]
        exact ((sortInsertEntry_perm x ys).cons y).trans (List.Perm.swap x y ys)
      · simp [h]

theorem sortEntries_perm : ∀ (l : List (String × List String)), (sortEntries l).Perm l
  | [] => List.Perm.refl _
  | x :: xs => by
      simp only [sortEntries]
      exact (sortInsertEntry_perm x (sortEntries xs)).trans ((sortEntries_perm xs).cons x)

theorem sortInsertEntry_pairwise (x : String × List String) :
    ∀ (l : List (String × List String)), l.Pairwise entryLe →
      (sortInsertEntry x l).Pairwise entryLe
  | [] => by intro _; simp [sortInsertEntry, entryLe]
  | y :: ys => by
      intro h
      rw [List.pairwise_cons] at h
      obtain ⟨hy, hys⟩ := h
      simp only [sortInsertEntry]
      cases hlt : strLt y.1 x.1 with
      | true =>
        simp only [if_true]
        rw [List.pairwise_cons]
        constructor
        · intro z hz
          rcases List.mem_cons.mp (((sortInsertEntry_perm x ys).mem_iff).mp hz) with hzx | hzys
          · subst hzx
            exact charsLt_asymm _ _ hlt
          · exact hy z hzys
        · exact sortInsertEntry_pairwise x ys hys
      | false =>
        simp only [Bool.false_eq_true, if_false]
        rw [List.pairwise_cons]
        constructor
        · intro z hz
          rcases List.mem_cons.mp hz with hzy | hzys
          · subst hzy
            exact hlt
          · show charsLt z.1.data x.1.data = false
            exact charsLt_false_trans (show charsLt y.1.data x.1.data = false from hlt)
              (show charsLt z.1.data y.1.data = false from hy z hzys)
        · rw [List.pairwise_cons]
          exact ⟨hy, hys⟩

theorem sortEntries_pairwise : ∀ (l : List (String × List String)),
    (sortEntries l).Pairwise entryLe
  | [] => List.Pairwise.nil
  | x :: xs => sortInsertEntry_pairwise x (sortEntries xs) (sortEntries_pairwise xs)

/-- Two key-sorted entry lists that are permutations of each other with
duplicate-free keys are equal. -/
theorem sorted_entries_unique (l1 l2 : List (String × List String))
    (hperm : l1.Perm l2) (h1 : l1.Pairwise entryLe) (h2 : l2.Pairwise entryLe)
    (hnd : (l1.map Prod.fst).Nodup) : l1 = l2 := by
  have hnd2 : (l2.map Prod.fst).Nodup := (hperm.map Prod.fst).nodup hnd
  have toLt : ∀ (l : List (String × List String)), l.Pairwise entryLe →
      (l.map Prod.fst).Nodup → l.Pairwise entryLt := by
    intro l hle hn
    have hne : l.Pairwise (fun a b => a.1 ≠ b.1) := List.pairwise_map.mp hn
    refine (hle.and hne).imp ?_
    rintro a b ⟨hab, hne'⟩
    cases h : charsLt a.1.data b.1.data with
    | true => exact h
    | false =>
        exfalso
        exact hne' (strEq_of_data (charsLt_conn _ _ h (by simpa [entryLe, strLt] using hab)))
  haveI : IsAntisymm (String × List String) entryLt :=
    ⟨fun a b hab hba => by
      have := charsLt_asymm _ _ hab
      rw [show charsLt b.1.data a.1.data = true from hba] at this
      cases this⟩
  exact List.eq_of_perm_of_sorted hperm (toLt l1 h1 hnd) (toLt l2 h2 hnd2)

theorem mapLookup_eq_none {α : Type} :
    ∀ (m : List (String × α)) (k : String), k ∉ m.map Prod.fst → mapLookup m k = none
  | [], _ => by intro _; rfl
  | (k0, v0) :: rest, k => by
      intro h
      simp only [List.map_cons, List.mem_cons] at h
      push_neg at h
      have hne : ¬(k0 = k) := fun he => h.1 he.symm
      simp only [mapLookup]
      rw [if_neg hne]
      exact mapLookup_eq_none rest k h.2

theorem mapSet_append {α : Type} :
    ∀ (m : List (String × α)) (k : String) (v : α), k ∉ m.map Prod.fst →
      mapSet m k v = m ++ [(k, v)]
  | [], _, _ => by intro _; rfl
  | (k0, v0) :: rest, k, v => by
      intro h
      simp only [List.map_cons, List.mem_cons] at h
      push_neg at h
      have hne : ¬(k0 = k) := fun he => h.1 he.symm
      simp only [mapSet]
      rw [if_neg hne, mapSet_append rest k v h.2]
      simp

theorem mem_mapSet_keys {α : Type} :
    ∀ (m : List (String × α)) (k k' : String) (v : α),
      k' ∈ (mapSet m k v).map Prod.fst ↔ k' ∈ m.map Prod.fst ∨ k' = k
  | [], k, k', v => by simp [mapSet]
  | (k0, v0) :: rest, k, k', v => by
      simp only [mapSet]
      by_cases h : k0 = k
      · subst h
        rw [if_pos rfl]
        simp only [List.map_cons, List.mem_cons]
        tauto
      · rw [if_neg h]
        simp only [List.map_cons, List.mem_cons, mem_mapSet_keys rest k k' v]
        tauto

/-- Folding the dirmap-build step over an iteration list whose transformed
keys are fresh and duplicate-free appends the transformed entries. -/
theorem buildDirMap_go (strip : String) :
    ∀ (iter : List (String × List String)) (m : List (String × List String)),
      (m.map Prod.fst ++ iter.map (fun kv => stripDirKey strip kv.1)).Nodup →
      iter.foldl (fun m kv => let e := dirMapEntry strip kv; mapSet m e.1 e.2) m =
        m ++ iter.map (dirMapEntry strip)
  | [], m => by intro _; simp
  | kv :: rest, m => by
      intro h
      have hk : stripDirKey strip kv.1 ∉ m.map Prod.fst := by
        intro hmem
        rcases List.nodup_append.mp h with ⟨_, _, hdisj⟩
        exact hdisj hmem (by simp)
      simp only [List.foldl_cons]
      have hstep : mapSet m (dirMapEntry strip kv).1 (dirMapEntry strip kv).2 =
          m ++ [dirMapEntry strip kv] := by
        have : (dirMapEntry strip kv).1 = stripDirKey strip kv.1 := rfl
        rw [this]
        exact mapSet_append m _ _ hk
      rw [hstep, buildDirMap_go strip rest (m ++ [dirMapEntry strip kv]) (by
        simp only [List.map_append, List.map_cons, List.map_nil] at h ⊢
        have : (dirMapEntry strip kv).1 = stripDirKey strip kv.1 := rfl
        rw [this]
        simpa [List.append_assoc] using h)]
      simp

/-- When prefix-stripping leaves the directory keys duplicate-free, the
rebuilt dirmap is exactly the entrywise-transformed iteration list. -/
theorem buildDirMap_eq (strip : String) (iter : List (String × List String))
    (h : (iter.map (fun kv => stripDirKey strip kv.1)).Nodup) :
    buildDirMap strip iter = iter.map (dirMapEntry strip) := by
  have := buildDirMap_go strip iter [] (by simpa using h)
  simpa [buildDirMap] using this

theorem mem_buildDirMap_keys (strip : String) :
    ∀ (iter m : List (String × List String)) (k' : String),
      k' ∈ (iter.foldl
        (fun m kv => let e := dirMapEntry strip kv; mapSet m e.1 e.2) m).map Prod.fst ↔
      k' ∈ m.map Prod.fst ∨ k' ∈ iter.map (fun kv => stripDirKey strip kv.1)
  | [], m, k' => by simp
  | kv :: rest, m, k' => by
      simp only [List.foldl_cons, List.map_cons, List.mem_cons,
        mem_buildDirMap_keys strip rest _ k', mem_mapSet_keys]
      tauto

/-! ## The claims -/

/-- C1: the claim says every Open(p) of a regular file returns a handle
with its own read cursor over a copy of the data, so a read on one handle
leaves the other handle's position unchanged.  The code's own comment says
"Make a copy for reading", but `ret := fi` copies the *File pointer, so
both Open calls return the same object and share one cursor: after
Open "/a"; Open "/a"; a 1-byte read on the first handle returns [10], and
a 1-byte read on the second handle then returns [20] - the second byte -
instead of the [10] an independent cursor would return. -/
theorem c1_open_shares_cursor :
    ((fsShared.Open "/a").2 = .ok "/a") ∧
    ((((fsShared.Open "/a").1.Open "/a").1.handleRead "/a" 1).2.1 = [10]) ∧
    (let fs2 := ((fsShared.Open "/a").1.Open "/a").1
     let r1 := fs2.handleRead "/a" 1
     let r2 := r1.1.handleRead "/a" 1
     r1.2.1 = [10] ∧ r1.2.2 = none ∧ r2.2.1 = [20] ∧ r2.2.2 = none ∧ r2.2.1 ≠ [10]) := by
  decide

/-- C3: the claim says listing children of a present directory at any
non-negative start index i and count k never fails and is empty once
i ≥ n.  At i = n the result is indeed the clamped empty slice, but at
i = n + 1 the code computes make([]os.FileInfo, 0, maxl-index) with
capacity -1 and panics: readDir("/", 1, 1) on an empty listing panics
instead of returning the empty sequence. -/
theorem c3_readdir_overrequest_panics :
    (fsEmptyRoot.readDir "/" 1 1 = .panicked) ∧
    (fsEmptyRoot.readDir "/" 0 0 = .ok []) ∧
    (fsEmptyRoot.readDir "/" 0 5 = .ok []) ∧
    (fsOneChild.readDir "/" 0 5 = .ok [some ⟨"/f", 420, ⟨0, 0⟩, [1], none⟩]) ∧
    (fsOneChild.readDir "/" 1 3 = .ok []) ∧
    (fsOneChild.readDir "/" 2 1 = .panicked) := by
  decide

/-- C2: on the spec's concrete tree (root directory a holding regular file
a/b.txt and empty subdirectory a/c, stripPrefix "a") the walk registers
all three paths as entries, "/c" gets its own empty listing, and the file
b.txt is listed once under its parent - but the subdirectory name "c"
never enters the root listing, because addPath appends a name to the
parent's listing only in its non-directory branch.  The emitted root
listing is ["b.txt"], not the ["b.txt", "c"] the claim requires. -/
theorem c2_subdir_not_listed_in_parent :
    ((gStart.Add "a" (some exTree)).2 = none) ∧
    ((gEx.fsFilesMap.getD []).map Prod.fst = ["a", "a/b.txt", "a/c"]) ∧
    ((gEx.fsFilesMap.getD []).map (fun kv => stripFileKey "a" kv.1) =
      ["/", "/b.txt", "/c"]) ∧
    ((buildDirMap "a" (gEx.fsDirsMap.getD [])).map Prod.fst = ["/", "/c"]) ∧
    (mapLookup (buildDirMap "a" (gEx.fsDirsMap.getD [])) "/c" = some []) ∧
    (mapLookup (buildDirMap "a" (gEx.fsDirsMap.getD [])) "/" = some ["b.txt"]) ∧
    (mapLookup (buildDirMap "a" (gEx.fsDirsMap.getD [])) "/" ≠ some ["b.txt", "c"]) := by
  decide

/-- C4: the claim says the emitted modification time is stored as seconds
since the epoch plus the nanosecond offset, and that reconstructing from
the two stored integers yields the original timestamp.  The code prints
time.Unix(mt.Unix(), mt.UnixNano()): the second argument is the total
nanoseconds since the epoch, not the in-second offset, so the
reconstruction adds the seconds in twice.  For mtime = 1s after the epoch
the emitted line is time.Unix(1, 1000000000), which time.Unix normalizes
to 2 seconds after the epoch - not the original instant. -/
theorem c4_mtime_components_not_roundtrip :
    (GoTime.Unix ⟨1, 0⟩ = 1) ∧ (GoTime.UnixNano ⟨1, 0⟩ = 1000000000) ∧
    (timeUnix (GoTime.Unix ⟨1, 0⟩) (GoTime.UnixNano ⟨1, 0⟩) = ⟨2, 0⟩) ∧
    (timeUnix (GoTime.Unix ⟨1, 0⟩) (GoTime.UnixNano ⟨1, 0⟩) ≠ ⟨1, 0⟩) ∧
    (fileEntryBlock "" [("f", "__Assetsv1")] ("f", ⟨"f", 420, ⟨1, 0⟩⟩) =
      "\t\t\t\"f\": &assets.File\x7b\n\t\t\t\tPath:     \"f\",\n\t\t\t\tFileMode: 0x1a4,\n\t\t\t\tMTime:    time.Unix(1, 1000000000),\n\t\t\t\tData:     __Assetsv1,\n\t\t\t\x7d,\n") := by
  decide

/-- C8: the claim says a nonexistent path fails with NotFound and the
first error met during the recursive walk - including a failure to open a
subdirectory - stops the walk and is propagated as the returned error.
Stat failure and Readdir-failure propagation and stop-at-first-error all
hold, but an os.Open failure is not propagated: its error is overwritten
by `fi, err := f.Readdir(-1)`, which on the nil handle returns
os.ErrInvalid, so the caller sees ErrInvalid instead of the open error
(here "permission denied"). -/
theorem c8_open_error_swallowed :
    ((gStart.Add "missing" none).2 = some .errNotExist) ∧
    ((gStart.Add "a" (some badReaddirTree)).2 = some (.io "EIO")) ∧
    ((gStart.Add "a" (some stopTree)).2 = some (.io "EIO")) ∧
    (mapLookup ((gStart.Add "a" (some stopTree)).1.fsFilesMap.getD []) "a/good" = none) ∧
    ((gStart.Add "a" (some badOpenTree)).2 = some .errInvalid) ∧
    ((gStart.Add "a" (some badOpenTree)).2 ≠ some (.io "permission denied")) := by
  decide

/-- C6 counterexample: the claim says a directory handle's read and seek
fail with an invalid-operation error.  Neither read nor seek inspects
IsDir: on a directory handle (ModeDir set, no data, nil cursor) Read
returns 0 bytes with io.EOF - not os.ErrInvalid - and Seek succeeds. -/
theorem c6_dir_read_is_eof_not_invalid :
    (dirHandle.IsDir = true) ∧
    ((dirHandle.Read 1).2.1 = [] ∧ (dirHandle.Read 1).2.2 = some .eof) ∧
    ((dirHandle.Read 1).2.2 ≠ some .errInvalid) ∧
    ((dirHandle.Seek 3 0).2.1 = 3 ∧ (dirHandle.Seek 3 0).2.2 = none) := by
  decide

/-- C6 amended: a directory handle's read yields zero bytes with EOF (its
data is empty and the lazily created cursor starts at the end) and its
seek succeeds, rather than failing with InvalidOperation; its Stat
succeeds and returns the very Entry (so all metadata accessors mirror it,
e.g. Size 0); and conversely Readdir on a regular-file handle does fail
with os.ErrInvalid. -/
theorem c6_dir_and_file_handle_ops :
    (∀ (f : File) (n : Nat), f.data = [] → f.buf = none →
      (f.Read n).2.1 = [] ∧ (f.Read n).2.2 = some .eof) ∧
    (∀ (f : File) (off : Int), 0 ≤ off →
      (f.Seek off 0).2.1 = off ∧ (f.Seek off 0).2.2 = none) ∧
    (∀ f : File, f.Stat = (f, none)) ∧
    (∀ f : File, f.data = [] → f.Size = 0) ∧
    (∀ (fs : FileSystem) (f : File) (count : Int), f.IsDir = false →
      File.Readdir fs f count = .error .errInvalid) := by
  refine ⟨?_, ?_, fun f => rfl, ?_, ?_⟩
  · intro f n hdata hbuf
    simp [File.Read, ByteReader.read, hdata, hbuf]
  · intro f off hoff
    simp [File.Seek, ByteReader.seek, not_lt.mpr hoff]
  · intro f hdata
    simp [File.Size, hdata]
  · intro fs f count hdir
    simp [File.Readdir, hdir]

theorem c6_dir_and_file_handle_ops_witness :
    ((dirHandle.Read 5).2.1 = [] ∧ (dirHandle.Read 5).2.2 = some .eof) ∧
    ((dirHandle.Seek 0 0).2.1 = 0 ∧ (dirHandle.Seek 0 0).2.2 = none) ∧
    (dirHandle.Stat = (dirHandle, none)) ∧
    (dirHandle.Size = 0) ∧
    (File.Readdir fsShared ⟨"/a", 420, ⟨0, 0⟩, [10, 20], none⟩ 0 = .error .errInvalid) :=
  ⟨c6_dir_and_file_handle_ops.1 dirHandle 5 (by decide) (by decide),
   c6_dir_and_file_handle_ops.2.1 dirHandle 0 (by decide),
   c6_dir_and_file_handle_ops.2.2.1 dirHandle,
   c6_dir_and_file_handle_ops.2.2.2.1 dirHandle (by decide),
   c6_dir_and_file_handle_ops.2.2.2.2 fsShared ⟨"/a", 420, ⟨0, 0⟩, [10, 20], none⟩ 0 (by decide)⟩

/-- C7: Close always succeeds and only drops the cursor; a read on the
closed handle lazily re-creates a fresh cursor, behaving exactly like the
handle a fresh Open returns (buf = reader at offset 0); in particular a
full sequential read after close yields the file's data from position 0. -/
theorem c7_close_then_read_is_fresh :
    (∀ f : File, (f.Close).2 = none) ∧
    (∀ (f : File) (n : Nat), ((f.Close).1).Read n = ({ f with buf := some 0 }).Read n) ∧
    (∀ f : File, (((f.Close).1).Read f.data.length).2.1 = f.data) := by
  refine ⟨fun f => rfl, fun f n => rfl, ?_⟩
  intro f
  cases hd : f.data with
  | nil => simp [File.Close, File.Read, ByteReader.read, hd]
  | cons b bs =>
      simp [File.Close, File.Read, ByteReader.read, hd]
      rw [if_neg (show ¬((bs.length : Int) + 1 ≤ 0) by omega)]

theorem isPrefixOf_self : ∀ (l : List Char), l.isPrefixOf l = true
  | [] => rfl
  | c :: cs => by simp [List.isPrefixOf, isPrefixOf_self cs]

theorem stringsTrim_self (s : String) : stringsTrim s s = "" := by
  simp only [stringsTrim, isPrefixOf_self, if_true]
  rw [List.drop_length]

theorem stripKey_self (s : String) : stripDirKey s s = "/" ∧ stripFileKey s s = "/" := by
  constructor <;> simp [stripDirKey, stripFileKey, stringsTrim_self]

/-- C9: the dirmap loop and the Files loop apply the same post-strip key
transformation (TrimPrefix, then "/" for an emptied string); therefore
whenever the collector's dirs keys are among its files keys - as the walk
guarantees - every emitted directory-listing key string also occurs among
the emitted entries key strings; and a path equal to the strip prefix
itself is emitted as the root marker "/" in both mappings. -/
theorem c9_strip_transforms_agree :
    (∀ strip k, stripDirKey strip k = stripFileKey strip k) ∧
    (∀ strip, stripDirKey strip strip = "/" ∧ stripFileKey strip strip = "/") ∧
    (∀ (strip : String) (di : List (String × List String)) (fkeys : List String),
      (∀ k, k ∈ di.map Prod.fst → k ∈ fkeys) →
      ∀ k', k' ∈ (sortEntries (buildDirMap strip di)).map Prod.fst →
        k' ∈ fkeys.map (stripFileKey strip)) := by
  refine ⟨fun strip k => rfl, fun strip => stripKey_self strip, ?_⟩
  intro strip di fkeys hsub k' hk'
  have h1 : k' ∈ (buildDirMap strip di).map Prod.fst :=
    (((sortEntries_perm (buildDirMap strip di)).map Prod.fst).mem_iff).mp hk'
  have h2 : k' ∈ di.map (fun kv => stripDirKey strip kv.1) := by
    have := (mem_buildDirMap_keys strip di [] k').mp (by simpa [buildDirMap] using h1)
    simpa using this
  rcases List.mem_map.mp h2 with ⟨kv, hkv, rfl⟩
  exact List.mem_map.mpr ⟨kv.1, hsub kv.1 (List.mem_map.mpr ⟨kv, hkv, rfl⟩), rfl⟩

theorem c9_strip_transforms_agree_witness :
    "/" ∈ (["a"].map (stripFileKey "a")) :=
  c9_strip_transforms_agree.2.2 "a" [("a", ["b.txt"])] ["a"] (by decide) "/" (by decide)

/-- C10: serializing a generator to which nothing was ever added succeeds
without touching the nil maps: the const-string pass is skipped, and the
emitted initialization declares an empty Dirs literal, an empty Files
literal, and Compressed equal to the compress option, for any OS state
and any compressor. -/
theorem c10_empty_generator_write :
    ∀ (c : Bool) (contents : String → Option (List Nat)) (gzipFn : List Nat → List Nat),
      Generator.writeOutput ⟨"", "", c, "", none, none⟩ contents gzipFn [] [] [] =
        .ok ("package main\n\nimport (\n\t\"github.com/jessevdk/go-assets\"\n\t\"time\"\n)\n\nvar Assets assets.FileSystem\n\nfunc init() \x7b\n\tAssets = assets.FileSystem\x7b\n\t\tDirs: map[string][]string\x7b\x7d,\n\t\tFiles: map[string]*assets.File\x7b\n\t\t\x7d,\n\t\tCompressed: " ++ goFormatBool c ++ ",\n\t\x7d\n\x7d\n") := by
  intro c contents gzipFn
  cases c <;> rfl

set_option maxRecDepth 100000 in
/-- C5 counterexample: the serializer's output is not a function of the
collector state and options alone.  With the same generator, contents and
options, two runs whose first fsFilesMap iteration (the const-string
pass) visits x and y in opposite orders emit the two []byte declarations
in opposite orders: the output texts differ character for character. -/
theorem c5_output_depends_on_iteration_order :
    Generator.writeOutput gDet contDet id
        [("x", finfoX), ("y", finfoY)] [("x", finfoX), ("y", finfoY)] [("d", [])] ≠
      Generator.writeOutput gDet contDet id
        [("y", finfoY), ("x", finfoX)] [("x", finfoX), ("y", finfoY)] [("d", [])] := by
  decide

/-- C5 amended: the output is a pure function of the collector state, the
options, the file contents and the fsFilesMap iteration orders; for fixed
files iteration it does not depend on the fsDirsMap iteration order at
all (fmt %#v prints the rebuilt dirmap in sorted key order), provided
prefix-stripping leaves the directory keys duplicate-free. -/
theorem c5_dirs_iteration_order_irrelevant :
    ∀ (x : Generator) (contents : String → Option (List Nat))
      (gzipFn : List Nat → List Nat) (fi1 fi2 : List (String × FileInfo))
      (d1 d2 : List (String × List String)),
      d1.Perm d2 →
      (d1.map (fun kv => stripDirKey x.StripPrefix kv.1)).Nodup →
      x.writeOutput contents gzipFn fi1 fi2 d1 = x.writeOutput contents gzipFn fi1 fi2 d2 := by
  intro x contents gzipFn fi1 fi2 d1 d2 hperm hnd
  have hnd2 : (d2.map (fun kv => stripDirKey x.StripPrefix kv.1)).Nodup :=
    (hperm.map _).nodup hnd
  have hb1 := buildDirMap_eq x.StripPrefix d1 hnd
  have hb2 := buildDirMap_eq x.StripPrefix d2 hnd2
  have hkeys : ((d1.map (dirMapEntry x.StripPrefix)).map Prod.fst).Nodup := by
    simpa [List.map_map, Function.comp] using hnd
  have hsorted : sortEntries (buildDirMap x.StripPrefix d1) =
      sortEntries (buildDirMap x.StripPrefix d2) := by
    rw [hb1, hb2]
    apply sorted_entries_unique
    · exact ((sortEntries_perm _).trans (hperm.map _)).trans (sortEntries_perm _).symm
    · exact sortEntries_pairwise _
    · exact sortEntries_pairwise _
    · exact ((sortEntries_perm _).map Prod.fst).symm.nodup hkeys
  have hline : dirsLineOf x.StripPrefix d1 = dirsLineOf x.StripPrefix d2 := by
    simp [dirsLineOf, hsorted]
  simp only [Generator.writeOutput, hline]

theorem c5_dirs_iteration_order_irrelevant_witness :
    Generator.writeOutput gDet contDet id [] [] [("d", []), ("e", [])] =
      Generator.writeOutput gDet contDet id [] [] [("e", []), ("d", [])] :=
  c5_dirs_iteration_order_irrelevant gDet contDet id [] []
    [("d", []), ("e", [])] [("e", []), ("d", [])] (by decide) (by decide)
